import Mathlib

/-!
Verification of the `ProjPredictor` projection-inference pipeline
(`src/ProjPredictor.py`): a shallow embedding of the volume-alignment
transform, the voxel-connectivity inference step, structure-name
resolution, and the per-area aggregation, together with theorems about
the claims of the specification.

Volumes (3-dimensional numpy arrays) are embedded as a shape together
with a total indexing function on natural-number coordinates; values are
rationals.  Entries of the voxel connectivity matrix may be IEEE NaN, so
they are embedded as `Option ℚ` with `none` standing for NaN.
-/

namespace ProjPredictor

/-- A floating value of the voxel connectivity matrix: `none` models IEEE
NaN, `some q` an ordinary finite value. -/
abbrev NFloat := Option ℚ

/-- Addition on `NFloat`: NaN absorbs, as IEEE addition does. -/
def nadd : NFloat → NFloat → NFloat
  | some a, some b => some (a + b)
  | _, _ => none

/-- A 3-dimensional numpy array: its shape `(s0, s1, s2)` and a total
indexing function.  Indices outside the shape never matter to the code
being embedded (numpy raises on them); the embedding keeps `val` total. -/
structure Vol where
  s0 : ℕ
  s1 : ℕ
  s2 : ℕ
  val : ℕ → ℕ → ℕ → ℚ

/-- The all-zero, zero-shaped volume (used as the `getD` default where the
Python code would have crashed on a `None` image). -/
def zeroVol : Vol := ⟨0, 0, 0, fun _ _ _ => 0⟩

/-- Pixel identity of two volumes: equal shapes and equal values at every
in-range coordinate. -/
def EqOn (a b : Vol) : Prop :=
  a.s0 = b.s0 ∧ a.s1 = b.s1 ∧ a.s2 = b.s2 ∧
    ∀ i j k, i < a.s0 → j < a.s1 → k < a.s2 → a.val i j k = b.val i j k

/-- `np.transpose(v, (1, 0, 2))`: swap the first two axes
(`ProjPredictor._permute_pad_reflect`, line 244). -/
def transpose102 (v : Vol) : Vol :=
  ⟨v.s1, v.s0, v.s2, fun i j k => v.val j i k⟩

/-- `np.pad(v, ((0, 132 - 88), (80 - 65 - 10, 10), (13, 114 - 88 - 13)),
'constant')`, i.e. zero padding by `((0, 44), (5, 10), (13, 13))`
(`ProjPredictor._permute_pad_reflect`, line 245). -/
def pad_fixed (v : Vol) : Vol :=
  ⟨v.s0 + 44, v.s1 + 15, v.s2 + 26, fun i j k =>
    if i < v.s0 ∧ 5 ≤ j ∧ j < 5 + v.s1 ∧ 13 ≤ k ∧ k < 13 + v.s2 then
      v.val i (j - 5) (k - 13)
    else 0⟩

/-- `np.flip(v, axis=(0, 1))` (`ProjPredictor._permute_pad_reflect`,
line 246). -/
def flip01 (v : Vol) : Vol :=
  ⟨v.s0, v.s1, v.s2, fun i j k => v.val (v.s0 - 1 - i) (v.s1 - 1 - j) k⟩

/-- `np.fliplr(v)`: flip along axis 1 (`ProjPredictor._permute_pad_reflect`,
line 248). -/
def fliplr (v : Vol) : Vol :=
  ⟨v.s0, v.s1, v.s2, fun i j k => v.val i (v.s1 - 1 - j) k⟩

/-- `ProjPredictor._permute_pad_reflect` (lines 237-248): transpose the
first two axes, zero-pad by the fixed offsets, flip axes 0 and 1, and,
when `y_mirror` is set, additionally flip left-right. -/
def permute_pad_reflect (y_mirror : Bool) (v : Vol) : Vol :=
  let w := flip01 (pad_fixed (transpose102 v))
  if y_mirror then fliplr w else w

/-- Modelled from the spec: `skimage.transform.resize` is an external
collaborator (spec section 6, image resampling).  The model keeps its
contract — the output has exactly the requested shape — and fills values
by nearest-coordinate scaling; the interpolation details of the external
library are not part of the spec's compatibility surface. -/
def resize (shape : ℕ × ℕ × ℕ) (v : Vol) : Vol :=
  ⟨shape.1, shape.2.1, shape.2.2, fun i j k =>
    v.val (i * v.s0 / shape.1) (j * v.s1 / shape.2.1) (k * v.s2 / shape.2.2)⟩

/-- `self.default_shape = (65, 88, 88)` (`ProjPredictor.__init__`,
line 91). -/
def default_shape : ℕ × ℕ × ℕ := (65, 88, 88)

/-- The volume with every in-range value forced to exactly `1` where the
original value is exactly `1` and to `0` elsewhere (used to state which
voxels the inference step selects). -/
def binarize (v : Vol) : Vol :=
  ⟨v.s0, v.s1, v.s2, fun i j k => if v.val i j k = 1 then 1 else 0⟩

/-- Elementwise product of two volumes of equal shape (`mask * projections`
in `save_proj_by_area`, lines 348-351). -/
def volMul (a b : Vol) : Vol :=
  ⟨a.s0, a.s1, a.s2, fun i j k => a.val i j k * b.val i j k⟩

/-- `v.sum()`: the sum of every in-range value of the volume. -/
def volSum (v : Vol) : ℚ :=
  ((List.range v.s0).map fun i =>
    ((List.range v.s1).map fun j =>
      ((List.range v.s2).map fun k => v.val i j k).sum).sum).sum

/-- `SourceMask.mask_volume(image)` (line 226): read the volume at the
mask's coordinate list, producing the flattened row-index-space vector. -/
def mask_volume (coords : List (ℕ × ℕ × ℕ)) (v : Vol) : List ℚ :=
  coords.map fun c => v.val c.1 c.2.1 c.2.2

/-- `self._voxel_array[data_flattened == 1]` (line 228): boolean row
selection — keep the weight-matrix rows whose flattened value is exactly
`1`. -/
def selectedRows (flat : List ℚ) (rows : List (List NFloat)) :
    List (List NFloat) :=
  ((flat.zip rows).filter fun p => decide (p.1 = 1)).map Prod.snd

/-- `.sum(axis=0)` (line 228): columnwise sum of the selected rows; the
sum over no rows is `0` in every column, as numpy's empty sum is. -/
def sumRows (n : ℕ) (rows : List (List NFloat)) : List NFloat :=
  (List.range n).map fun j =>
    (rows.map fun r => r.getD j (some 0)).foldr nadd (some 0)

/-- `np.nan_to_num(row, nan=0.0)` (line 229): replace NaN by `0`. -/
def nan_to_num (row : List NFloat) : List ℚ :=
  row.map fun x => x.getD 0

/-- `TargetMask.map_masked_to_annotation(row)` (line 230): write the
flattened result vector back at the target mask's coordinates, `0`
everywhere else, in a volume of the annotation's shape. -/
def map_masked_to_annotation (shape : ℕ × ℕ × ℕ)
    (coords : List (ℕ × ℕ × ℕ)) (row : List ℚ) : Vol :=
  ⟨shape.1, shape.2.1, shape.2.2, fun i j k =>
    match coords.findIdx? fun c => decide (c = (i, j, k)) with
    | some t => row.getD t 0
    | none => 0⟩

/-- The read-only connectivity model and ontology the engine loads at
construction (`VoxelModelCache.get_voxel_connectivity_array` and the
structure tree, lines 74-77): the weight matrix (one row of `nCols`
entries per source-mask coordinate), the source and target masks, the
structure-name map, and the reference-space structure-mask lookup. -/
structure Model where
  nameMap : List (String × ℕ)
  sourceCoords : List (ℕ × ℕ × ℕ)
  voxelArray : List (List NFloat)
  nCols : ℕ
  tShape : ℕ × ℕ × ℕ
  targetCoords : List (ℕ × ℕ × ℕ)
  structMask : List ℕ → Vol

/-- The inference of `ProjPredictor.vol_to_probs` (lines 226-230) as a
pure function of the connectivity model and the current source image:
flatten through the source mask, keep the rows whose flattened value is
`1`, sum them columnwise, replace NaN by `0`, and expand through the
target mask. -/
def vol_to_probs_pure (m : Model) (v : Vol) : Vol :=
  map_masked_to_annotation m.tShape m.targetCoords
    (nan_to_num (sumRows m.nCols
      (selectedRows (mask_volume m.sourceCoords v) m.voxelArray)))

/-- Row selection as the spec words it: walk the flattened vector and the
weight matrix together, keeping each row whose flattened value is
selected (exactly `1`). -/
def selectRowsSpec : List ℚ → List (List NFloat) → List (List NFloat)
  | f :: fs, r :: rs =>
      if f = 1 then r :: selectRowsSpec fs rs else selectRowsSpec fs rs
  | _, _ => []

/-- The inference step as the spec's section 4.3 words it: flatten the
source volume through the source mask, select the weight-matrix rows
whose flattened value is selected, reduce the selected rows to one row by
sum across the rows, replace any NaN of the reduction by `0`, and expand
the result through the target mask. -/
def inferSpec (m : Model) (v : Vol) : Vol :=
  map_masked_to_annotation m.tShape m.targetCoords
    (nan_to_num (sumRows m.nCols
      (selectRowsSpec (mask_volume m.sourceCoords v) m.voxelArray)))

/-- The mutable per-sample state of a `ProjPredictor` instance: the
loaded connectivity model, the `y_mirror` flag, the aligned source image
`_image`, the cached projection volume `_projections`, and the
`_source_area` and `_filter_area` labels (set at lines 69-91). -/
structure PPState where
  model : Model
  y_mirror : Bool
  image? : Option Vol
  projections? : Option Vol
  source_area : Option String
  filter_area : Option String

/-- A diagnostic the engine emits: `warnings.warn(..., UserWarning)` as
the code does, or the `UnknownStructureError` the spec asks for (no such
exception type exists anywhere in `src/`). -/
inductive Report
  | userWarning (msg : String)
  | unknownStructureError (names : List String)
deriving DecidableEq

/-- The fixed message of the unknown-name warning
(`assert_valid_structure_name`, line 119). -/
def unknownNameMsg : String :=
  "Source area name (not acronym) cannot be found in the structure tree."

/-- `ProjPredictor.assert_valid_structure_name` (lines 111-119) restricted
to string inputs (the `isinstance` type-check warning of lines 114-116 is
about Python dynamic typing and is not modelled): when any given name is
absent from the structure tree's name map, emit the fixed generic
`UserWarning`; otherwise emit nothing.  The method never raises. -/
def assert_valid_structure_name (nameMap : List (String × ℕ))
    (names : List String) : List Report :=
  if names.any fun n => !((nameMap.map Prod.fst).contains n) then
    [Report.userWarning unknownNameMsg]
  else []

/-- Modelled from the spec: the external ontology lookup
`StructureTree.get_structures_by_name` behind
`ProjPredictor.struct_names_to_ids` (line 312) belongs to the ontology
service of spec section 6; per section 4.2 the name map resolves each
name to one id and a lookup of an absent name fails (`none`), never
silently dropping entries. -/
def lookupIds (nameMap : List (String × ℕ)) : List String → Option (List ℕ)
  | [] => some []
  | n :: ns =>
    match nameMap.lookup n, lookupIds nameMap ns with
    | some i, some is => some (i :: is)
    | _, _ => none

/-- `ProjPredictor.struct_names_to_ids` (lines 297-314): resolve each name
through the ontology and return the ids in input order; fails when the
external lookup does. -/
def struct_names_to_ids (nameMap : List (String × ℕ))
    (names : List String) : Option (List ℕ) :=
  lookupIds nameMap names

/-- The `image` property setter (lines 125-131): store the assigned array
and unconditionally apply `_permute_pad_reflect` to it.  The cached
`_projections` is left untouched. -/
def image_set (st : PPState) (v : Vol) : PPState :=
  { st with image? := some (permute_pad_reflect st.y_mirror v) }

/-- `ProjPredictor.vol_to_probs` with its default `save=True` (lines
209-235): compute the projection volume from the current image and store
it in `_projections`, returning it as well. -/
def vol_to_probs (st : PPState) : Vol × PPState :=
  let rv := vol_to_probs_pure st.model (st.image?.getD zeroVol)
  (rv, { st with projections? := some rv })

/-- The `projections` property getter (lines 133-137): when `_projections`
is `None`, run `vol_to_probs` (which caches); then return the stored
volume. -/
def projections_get (st : PPState) : Vol × PPState :=
  match st.projections? with
  | some p => (p, st)
  | none => vol_to_probs st

/-- The `source_area` property setter (lines 97-100): validate (which at
most warns) and store the name. -/
def source_area_set (st : PPState) (name : String) : PPState :=
  { st with source_area := some name }

/-- `ProjPredictor.set_image_from_file` (lines 173-185): store the mirror
flag, read the file (the file's content is the given volume), resample to
`default_shape` only when `reshape` is set, assign through the `image`
setter, and optionally set the source area. -/
def set_image_from_file (st : PPState) (imdata : Vol) (ym : Bool)
    (sa : Option String) (reshape : Bool) : PPState :=
  let st1 := { st with y_mirror := ym }
  let im := if reshape then resize default_shape imdata else imdata
  let st2 := image_set st1 im
  match sa with
  | some s => source_area_set st2 s
  | none => st2

/-- One row of the table `save_proj_by_area` builds (lines 357-364):
source-area label, target-area name, projection strength, the two
normalization flags, and the filter-area column (present exactly when a
filter area was set upstream). -/
structure Row where
  source_area : Option String
  target_area : String
  strength : ℚ
  norm_source : Bool
  norm_target : Bool
  filter_label : Option String
deriving DecidableEq

/-- The per-target strength of `save_proj_by_area` (lines 347-355): the
masked projection sum, divided by the target-mask voxel count when
`normalize_target`, then divided by the source image's voxel sum when
`normalize_source`. -/
def proj_strength_one (mask proj img : Vol) (ns nt : Bool) : ℚ :=
  let base := volSum (volMul mask proj)
  let t := if nt then base / volSum mask else base
  if ns then t / volSum img else t

/-- `ProjPredictor.save_proj_by_area` (lines 316-366) up to the external
pickling: validate (warn only), resolve the target names, read the
`projections` property, compute one strength per id, and build one row
per target name in input order, every row carrying the source label, the
two normalization flags, and the filter label.  Fails (`none`) exactly
when name resolution fails. -/
def save_proj_by_area_rows (st : PPState) (names : List String)
    (ns nt : Bool) : Option (List Row) :=
  match struct_names_to_ids st.model.nameMap names with
  | none => none
  | some ids =>
    let proj := (projections_get st).1
    let img := st.image?.getD zeroVol
    let strengths := ids.map fun i =>
      proj_strength_one (st.model.structMask [i]) proj img ns nt
    some ((names.zip strengths).map fun p =>
      { source_area := st.source_area
        target_area := p.1
        strength := p.2
        norm_source := ns
        norm_target := nt
        filter_label := st.filter_area })

/-- A concrete miniature connectivity model for the concrete runs: one
source-mask coordinate `(44, 10, 13)` (exactly where the aligned
`1×1×1` all-ones volume puts its voxel), a `1×1` weight matrix `[[1]]`,
and a one-voxel target space. -/
def mdl : Model :=
  { nameMap := [("Dentate nucleus", 846)]
    sourceCoords := [(44, 10, 13)]
    voxelArray := [[some 1]]
    nCols := 1
    tShape := (1, 1, 1)
    targetCoords := [(0, 0, 0)]
    structMask := fun _ => zeroVol }

/-- The `1×1×1` all-ones raw volume. -/
def vOne : Vol := ⟨1, 1, 1, fun _ _ _ => 1⟩

/-- The `1×1×1` all-zero raw volume. -/
def vZero : Vol := ⟨1, 1, 1, fun _ _ _ => 0⟩

/-- A `10×10×10` all-zero raw volume (a shape differing from
`default_shape`). -/
def vTen : Vol := ⟨10, 10, 10, fun _ _ _ => 0⟩

/-- A fresh engine state over `mdl`: nothing loaded, nothing cached. -/
def st0 : PPState :=
  { model := mdl, y_mirror := false, image? := none, projections? := none
    source_area := none, filter_area := none }

/-- The state after loading `vOne` and reading the `projections` property
(which computes the inference and caches it). -/
def stA : PPState := (projections_get (image_set st0 vOne)).2

/-- The state after then loading the new source volume `vZero` — note the
cached projection volume of `stA` is still present. -/
def stB : PPState := image_set stA vZero

/-- The projection volume cached in `stA` (inference from `vOne`). -/
def projVal : Vol := vol_to_probs_pure mdl (permute_pad_reflect false vOne)

/-- The row list `save_proj_by_area` builds on `stA` for the single target
`Dentate nucleus` with no normalization. -/
def rowsW : List Row :=
  (save_proj_by_area_rows stA ["Dentate nucleus"] false false).getD []

/-! Helper lemmas (shared by the claim theorems). -/

theorem fliplr_fliplr_eqOn (w : Vol) : EqOn (fliplr (fliplr w)) w := by
  refine ⟨rfl, rfl, rfl, fun i j k _ hj _ => ?_⟩
  show w.val i (w.s1 - 1 - (w.s1 - 1 - j)) k = w.val i j k
  have hj' : j < w.s1 := hj
  congr 1
  omega

theorem selectedRows_eq_selectRowsSpec (fs : List ℚ) :
    ∀ rs, selectedRows fs rs = selectRowsSpec fs rs := by
  induction fs with
  | nil => intro rs; simp [selectedRows, selectRowsSpec]
  | cons f fs ih =>
    intro rs
    cases rs with
    | nil => simp [selectedRows, selectRowsSpec]
    | cons r rs =>
      by_cases h : f = 1 <;> simp [selectedRows, selectRowsSpec, h, ← ih rs]

theorem selectRowsSpec_binarize (fs : List ℚ) :
    ∀ rs, selectRowsSpec (fs.map fun x => if x = 1 then 1 else 0) rs
      = selectRowsSpec fs rs := by
  induction fs with
  | nil => intro rs; simp [selectRowsSpec]
  | cons f fs ih =>
    intro rs
    cases rs with
    | nil => simp [selectRowsSpec]
    | cons r rs => by_cases h : f = 1 <;> simp [selectRowsSpec, h, ih rs]

theorem getD_zero_of_all_zero :
    ∀ (l : List ℚ) (t : ℕ), (∀ x ∈ l, x = 0) → l.getD t 0 = 0
  | [], t, _ => by cases t <;> rfl
  | x :: l, 0, h => h x (List.mem_cons_self x l)
  | x :: l, t + 1, h =>
    getD_zero_of_all_zero l t fun y hy => h y (List.mem_cons_of_mem x hy)

theorem lookupIds_length (nameMap : List (String × ℕ)) :
    ∀ names ids, lookupIds nameMap names = some ids →
      ids.length = names.length := by
  intro names
  induction names with
  | nil =>
    intro ids h
    simp only [lookupIds, Option.some.injEq] at h
    simp [← h]
  | cons n ns ih =>
    intro ids h
    simp only [lookupIds] at h
    cases hl : nameMap.lookup n with
    | none => rw [hl] at h; exact absurd h (by simp)
    | some i =>
      rw [hl] at h
      cases hr : lookupIds nameMap ns with
      | none => rw [hr] at h; exact absurd h (by simp)
      | some is =>
        rw [hr] at h
        simp only [Option.some.injEq] at h
        subst h
        simp [ih is hr]

/-! Claim theorems. -/

/-- Claim C7: aligning a raw volume with the mirror flag set yields
exactly the left-right flip of aligning the same volume without it, and
un-flipping the mirrored output left-right makes the two outputs
pixel-identical. -/
theorem mirror_alignment_is_fliplr (v : Vol) :
    permute_pad_reflect true v = fliplr (permute_pad_reflect false v) ∧
      EqOn (fliplr (permute_pad_reflect true v)) (permute_pad_reflect false v) :=
  ⟨rfl, fliplr_fliplr_eqOn (permute_pad_reflect false v)⟩

/-- Claim C9: every assignment through the `image` setter stores the
permute-pad-flip transform of the assigned array, unconditionally; the
transform is not idempotent (applying it to an already transformed volume
changes it again), witnessed at the volume `vOne`. -/
theorem image_setter_always_transforms :
    (∀ st v, (image_set st v).image? = some (permute_pad_reflect st.y_mirror v)) ∧
      permute_pad_reflect false (permute_pad_reflect false vOne)
        ≠ permute_pad_reflect false vOne := by
  refine ⟨fun st v => rfl, fun h => ?_⟩
  have h0 := congrArg Vol.s0 h
  simp [permute_pad_reflect, fliplr, flip01, pad_fixed, transpose102, vOne] at h0

/-- Claim C2, counterexample: loading a `10×10×10` volume through
`set_image_from_file` with its default `reshape=False` stores a volume of
shape `(54, 25, 36)`, not the reference shape `(132, 80, 114)` — the
setter never resamples on its own, so the output shape is not independent
of the input shape. -/
theorem align_shape_not_reference_without_resample :
    ((set_image_from_file st0 vTen false none false).image?.getD zeroVol).s0 = 54 ∧
      ((set_image_from_file st0 vTen false none false).image?.getD zeroVol).s1 = 25 ∧
      ((set_image_from_file st0 vTen false none false).image?.getD zeroVol).s2 = 36 ∧
      ¬(54 = 132 ∧ 25 = 80 ∧ 36 = 114) :=
  ⟨rfl, rfl, rfl, by decide⟩

/-- Claim C2, amended: when resampling is requested (`reshape=True`),
`set_image_from_file` stores a volume of the fixed reference shape
`(132, 80, 114)` for every 3-dimensional input; without it the stored
shape for an input of shape `(a, b, c)` is `(b + 44, a + 15, c + 26)`,
which equals the reference shape only for inputs already of the default
shape `(65, 88, 88)`. -/
theorem align_shape_characterization (st : PPState) (v : Vol) (ym : Bool)
    (sa : Option String) :
    (((set_image_from_file st v ym sa true).image?.getD zeroVol).s0 = 132 ∧
      ((set_image_from_file st v ym sa true).image?.getD zeroVol).s1 = 80 ∧
      ((set_image_from_file st v ym sa true).image?.getD zeroVol).s2 = 114) ∧
      (((set_image_from_file st v ym sa false).image?.getD zeroVol).s0 = v.s1 + 44 ∧
        ((set_image_from_file st v ym sa false).image?.getD zeroVol).s1 = v.s0 + 15 ∧
        ((set_image_from_file st v ym sa false).image?.getD zeroVol).s2 = v.s2 + 26) := by
  cases ym <;> cases sa <;>
    simp [set_image_from_file, image_set, source_area_set, permute_pad_reflect,
      fliplr, flip01, pad_fixed, transpose102, resize, default_shape]

/-- Claim C3: the inference step equals exactly the spec's composition —
flatten through the source mask, select the weight-matrix rows whose
flattened value is selected (exactly 1), reduce them to one row by sum
(not mean) across rows, replace NaN by 0, and expand through the target
mask. -/
theorem vol_to_probs_matches_spec (m : Model) (v : Vol) :
    vol_to_probs_pure m v = inferSpec m v := by
  unfold vol_to_probs_pure inferSpec
  rw [selectedRows_eq_selectRowsSpec]

/-- Claim C10: inference selects exactly the source positions whose
flattened masked value equals 1 — forcing every non-1 value to 0 (and
every 1 to 1) leaves the output unchanged, so voxels valued, say, 0.5 or
2 contribute no weight-matrix row. -/
theorem inference_selects_exactly_ones (m : Model) (v : Vol) :
    vol_to_probs_pure m (binarize v) = vol_to_probs_pure m v := by
  unfold vol_to_probs_pure
  rw [selectedRows_eq_selectRowsSpec, selectedRows_eq_selectRowsSpec]
  have hm : mask_volume m.sourceCoords (binarize v)
      = (mask_volume m.sourceCoords v).map fun x => if x = 1 then 1 else 0 := by
    simp [mask_volume, binarize, List.map_map]
  rw [hm, selectRowsSpec_binarize]

/-- Claim C1, counterexample: in the state `stB` — projections computed
and cached from the volume `vOne`, then the new source volume `vZero`
loaded through the `image` setter — reading the `projections` property
returns the stale cached volume (value `1` at the target voxel), while an
inference from the currently loaded volume yields `0` there: loading a
new source volume does not invalidate the cache. -/
theorem stale_projection_after_new_volume :
    (projections_get stB).1.val 0 0 0 = 1 ∧
      (vol_to_probs_pure mdl (stB.image?.getD zeroVol)).val 0 0 0 = 0 ∧
      (1 : ℚ) ≠ 0 := by
  refine ⟨?_, ?_, one_ne_zero⟩ <;>
    norm_num [stB, stA, st0, image_set, projections_get, vol_to_probs,
      vol_to_probs_pure, mask_volume, selectedRows, sumRows, nan_to_num,
      map_masked_to_annotation, permute_pad_reflect, flip01, pad_fixed,
      transpose102, fliplr, mdl, vOne, vZero, zeroVol, nadd, List.filter,
      List.findIdx?, List.range, List.range.loop, List.zip, List.zipWith]

/-- Claim C1, amended: assigning the `image` property or calling
`set_image_from_file` leaves the cached `_projections` untouched, so a
subsequent read of the `projections` property returns the previously
cached volume even though a new source volume is loaded; the cache is
refreshed only by an explicit `vol_to_probs` call (or when nothing is
cached yet). -/
theorem projection_cache_survives_image_load (st : PPState) (v : Vol)
    (ym : Bool) (sa : Option String) (rs : Bool) (p : Vol)
    (h : st.projections? = some p) :
    (image_set st v).projections? = some p ∧
      (set_image_from_file st v ym sa rs).projections? = some p ∧
      projections_get (image_set st v) = (p, image_set st v) := by
  refine ⟨h, ?_, ?_⟩
  · cases sa <;> simp [set_image_from_file, image_set, source_area_set, h]
  · simp [projections_get, image_set, h]

/-- Witness for C1's amended theorem: the state `stA` holds the cached
projection volume `projVal` computed from `vOne`; loading `vZero` keeps
it cached and the `projections` read still returns it. -/
theorem projection_cache_survives_image_load_witness :
    (image_set stA vZero).projections? = some projVal ∧
      (set_image_from_file stA vZero false none false).projections? = some projVal ∧
      projections_get (image_set stA vZero) = (projVal, image_set stA vZero) :=
  projection_cache_survives_image_load stA vZero false none false projVal rfl

/-- Claim C6: for an all-zero source volume no weight-matrix row is
selected, the columnwise sum of no rows is everywhere the ordinary value
0 (never NaN), and the inference returns the all-zero projection volume —
a deterministic, defined result. -/
theorem empty_selection_zero_volume (m : Model) (z : Vol)
    (hz : ∀ i j k, z.val i j k = 0) :
    (∀ x ∈ sumRows m.nCols
        (selectedRows (mask_volume m.sourceCoords z) m.voxelArray),
      x = some 0) ∧
      ∀ i j k, (vol_to_probs_pure m z).val i j k = 0 := by
  have hflat : ∀ x ∈ mask_volume m.sourceCoords z, x = 0 := by
    intro x hx
    obtain ⟨c, _, rfl⟩ := List.mem_map.mp hx
    exact hz _ _ _
  have hsel : selectedRows (mask_volume m.sourceCoords z) m.voxelArray = [] := by
    unfold selectedRows
    rw [List.filter_eq_nil_iff.mpr, List.map_nil]
    rintro ⟨a, b⟩ hab
    have ha : a = 0 := hflat a (List.of_mem_zip hab).1
    simp [ha]
  have hrow : ∀ x ∈ sumRows m.nCols
      (selectedRows (mask_volume m.sourceCoords z) m.voxelArray),
      x = some 0 := by
    rw [hsel]
    intro x hx
    obtain ⟨j, _, rfl⟩ := List.mem_map.mp hx
    rfl
  refine ⟨hrow, fun i j k => ?_⟩
  have hzero : ∀ x ∈ nan_to_num (sumRows m.nCols
      (selectedRows (mask_volume m.sourceCoords z) m.voxelArray)), x = (0 : ℚ) := by
    intro x hx
    obtain ⟨y, hy, rfl⟩ := List.mem_map.mp hx
    rw [hrow y hy]
    rfl
  simp only [vol_to_probs_pure, map_masked_to_annotation]
  cases hf : m.targetCoords.findIdx? fun c => decide (c = (i, j, k)) with
  | some t => exact getD_zero_of_all_zero _ t hzero
  | none => rfl

/-- Witness for C6: the concrete all-zero volume `vZero` over the model
`mdl` selects nothing, sums to ordinary zeros and infers the all-zero
projection volume. -/
theorem empty_selection_zero_volume_witness :
    (∀ x ∈ sumRows mdl.nCols
        (selectedRows (mask_volume mdl.sourceCoords vZero) mdl.voxelArray),
      x = some 0) ∧
      ∀ i j k, (vol_to_probs_pure mdl vZero).val i j k = 0 :=
  empty_selection_zero_volume mdl vZero fun _ _ _ => rfl

/-- Claim C5: with nonzero source voxel count and nonzero target voxel
count, the both-normalized per-target strength equals the target-only
normalized strength divided by the source voxel count (the sum of the
source volume), and symmetrically equals the source-only normalized
strength divided by the target structure's voxel count — exactly, since
the embedding computes in ℚ. -/
theorem normalization_consistency (mask proj img : Vol)
    (_hs : volSum img ≠ 0) (_ht : volSum mask ≠ 0) :
    proj_strength_one mask proj img true true
        = proj_strength_one mask proj img false true / volSum img ∧
      proj_strength_one mask proj img true true
        = proj_strength_one mask proj img true false / volSum mask := by
  refine ⟨rfl, ?_⟩
  show volSum (volMul mask proj) / volSum mask / volSum img
      = volSum (volMul mask proj) / volSum img / volSum mask
  rw [div_div, div_div, mul_comm]

/-- Witness for C5: strengths over the concrete all-ones `1×1×1` volume,
whose voxel sums are `1`. -/
theorem normalization_consistency_witness :
    volSum vOne ≠ 0 ∧
      (proj_strength_one vOne vOne vOne true true
          = proj_strength_one vOne vOne vOne false true / volSum vOne ∧
        proj_strength_one vOne vOne vOne true true
          = proj_strength_one vOne vOne vOne true false / volSum vOne) :=
  have h : volSum vOne ≠ 0 := by norm_num [volSum, vOne]
  ⟨h, normalization_consistency vOne vOne vOne h h⟩

/-- Claim C8: whenever every target name resolves, `save_proj_by_area`
builds exactly one row per target name, in the order of the input name
sequence, every row tagged with both normalization flags, with the
engine's source-area label, and with the filter-area label exactly as set
upstream. -/
theorem save_proj_rows_schema (st : PPState) (names : List String)
    (ns nt : Bool) (rows : List Row)
    (h : save_proj_by_area_rows st names ns nt = some rows) :
    rows.length = names.length ∧
      rows.map Row.target_area = names ∧
      ∀ r ∈ rows, r.norm_source = ns ∧ r.norm_target = nt ∧
        r.filter_label = st.filter_area ∧ r.source_area = st.source_area := by
  unfold save_proj_by_area_rows at h
  cases hids : struct_names_to_ids st.model.nameMap names with
  | none => rw [hids] at h; exact absurd h (by simp)
  | some ids =>
    rw [hids] at h
    simp only [Option.some.injEq] at h
    subst h
    have hlen : ids.length = names.length := lookupIds_length _ _ _ hids
    have hslen : (ids.map fun i =>
        proj_strength_one (st.model.structMask [i]) (projections_get st).1
          (st.image?.getD zeroVol) ns nt).length = names.length := by
      rw [List.length_map, hlen]
    refine ⟨?_, ?_, ?_⟩
    · rw [List.length_map, List.length_zip, hslen, min_self]
    · rw [List.map_map]
      have : (Row.target_area ∘ fun p : String × ℚ =>
          ({ source_area := st.source_area, target_area := p.1, strength := p.2
             norm_source := ns, norm_target := nt
             filter_label := st.filter_area } : Row)) = Prod.fst := rfl
      rw [this]
      exact List.map_fst_zip _ _ (le_of_eq hslen.symm)
    · intro r hr
      obtain ⟨p, _, rfl⟩ := List.mem_map.mp hr
      exact ⟨rfl, rfl, rfl, rfl⟩

/-- Witness for C8: the single resolvable target name over the state
`stA` yields the one-row table `rowsW` with the right tags. -/
theorem save_proj_rows_schema_witness :
    (rowsW.length = (["Dentate nucleus"] : List String).length ∧
      rowsW.map Row.target_area = ["Dentate nucleus"] ∧
      ∀ r ∈ rowsW, r.norm_source = false ∧ r.norm_target = false ∧
        r.filter_label = stA.filter_area ∧ r.source_area = stA.source_area) :=
  save_proj_rows_schema stA ["Dentate nucleus"] false false rowsW rfl

set_option maxRecDepth 4000 in
/-- Claim C4, counterexample: requesting validation of the unknown name
`Not A Real Structure` produces only the fixed generic `UserWarning` — a
warning that is not an `UnknownStructureError` and whose text does not
name the offending structure (the name is not a substring of the
message). -/
theorem unknown_structure_generic_warning_only :
    assert_valid_structure_name [("Thalamus", 549)] ["Not A Real Structure"]
        = [Report.userWarning unknownNameMsg] ∧
      Report.userWarning unknownNameMsg
        ≠ Report.unknownStructureError ["Not A Real Structure"] ∧
      ¬ ("Not A Real Structure".data <:+: unknownNameMsg.data) := by
  refine ⟨by decide, by decide, by decide⟩


/-- Claim C4, amended: when some name is absent from the ontology's name
map, `assert_valid_structure_name` emits one generic `UserWarning` with a
fixed message (it does not raise, and no `UnknownStructureError` type
exists in the code); and whenever `struct_names_to_ids` returns an id
list at all, that list has exactly one id per input name — never a
silently truncated list. -/
theorem unknown_structure_warn_and_full_resolution
    (nameMap : List (String × ℕ)) (names1 names2 : List String)
    (ids : List ℕ)
    (h1 : (names1.any fun n => !((nameMap.map Prod.fst).contains n)) = true)
    (h2 : struct_names_to_ids nameMap names2 = some ids) :
    assert_valid_structure_name nameMap names1
        = [Report.userWarning unknownNameMsg] ∧
      ids.length = names2.length := by
  refine ⟨?_, lookupIds_length _ _ _ h2⟩
  unfold assert_valid_structure_name
  rw [if_pos h1]

/-- Witness for C4's amended theorem: the one-entry ontology, the unknown
name `Not A Real Structure` and the known name `Thalamus`. -/
theorem unknown_structure_warn_and_full_resolution_witness :
    assert_valid_structure_name [("Thalamus", 549)] ["Not A Real Structure"]
        = [Report.userWarning unknownNameMsg] ∧
      ([549] : List ℕ).length = (["Thalamus"] : List String).length :=
  unknown_structure_warn_and_full_resolution [("Thalamus", 549)]
    ["Not A Real Structure"] ["Thalamus"] [549] (by decide) rfl

end ProjPredictor
